import Mathlib

/-!
Verification development for the SwaggerForge core
(`src/services/swaggerService.ts`): the endpoint extractor
(`parseSwagger`), the reference resolver (`resolveRef`), the sample
synthesizer (`generateSampleJson`) and the test-case synthesizer
(`generateTestCases`).

The TypeScript operates on untyped JavaScript values.  We model those
values with the inductive type `Json` below, which includes a
distinguished `undefined` constructor (JavaScript `undefined`, as produced
by a missing property) next to `null`.  JavaScript exceptions
(`TypeError` from property access on `null`/`undefined`, calling a
missing method such as `.map` on a non-array, ...) are modelled with
`Except Unit`.  Numbers are modelled as `Int`: every numeric literal
appearing in the translated code paths is an integer and no claim
depends on float behaviour.  `new Date().toISOString()` is modelled by
threading an explicit `now` string parameter.
-/

/-- A JavaScript value as used by the swagger service: JSON values plus
`undefined`. -/
inductive Json where
  | undefined
  | null
  | bool (b : Bool)
  | num (n : Int)
  | str (s : String)
  | arr (elems : List Json)
  | obj (fields : List (String × Json))
deriving Repr

/-- JavaScript truthiness (`if (x)`): `undefined`, `null`, `false`, `0`
and the empty string are falsy; arrays and objects are always truthy. -/
def truthy : Json → Bool
  | .undefined => false
  | .null => false
  | .bool b => b
  | .num n => n != 0
  | .str s => s != ""
  | .arr _ => true
  | .obj _ => true

/-- JavaScript `a || b`. -/
def jsOr (a b : Json) : Json := if truthy a then a else b

/-- Strict equality of a value against a string literal
(JavaScript `v === "lit"`). -/
def isStrEq (v : Json) (t : String) : Bool :=
  match v with
  | .str s => s == t
  | _ => false

/-- Test for the `undefined` value (JavaScript `v === undefined`). -/
def isUndef : Json → Bool
  | .undefined => true
  | _ => false

/-- ASCII upper-casing of one character, as `String.prototype.toUpperCase`
acts on the ASCII method names appearing in swagger documents. -/
def upChar (c : Char) : Char :=
  if 'a' ≤ c ∧ c ≤ 'z' then Char.ofNat (c.toNat - 32) else c

/-- Model of `String.prototype.toUpperCase` (ASCII range). -/
def jsToUpper (s : String) : String := String.mk (s.toList.map upChar)

/-- Helper for `jsSplit`: split the remaining characters at `sep`,
`acc` being the (reversed) current piece. -/
def jsSplitAux (sep : Char) : List Char → List Char → List String
  | [], acc => [String.mk acc.reverse]
  | c :: cs, acc =>
      if c = sep then String.mk acc.reverse :: jsSplitAux sep cs []
      else jsSplitAux sep cs (c :: acc)

/-- Model of `String.prototype.split` with a one-character separator
(`"".split` yields `[""]`, adjacent separators yield empty pieces). -/
def jsSplit (sep : Char) (s : String) : List String := jsSplitAux sep s.toList []

/-- Model of `ref.replace(/^#\//, "")`: strip one leading `#/`. -/
def stripHash (s : String) : String :=
  match s.toList with
  | '#' :: '/' :: rest => String.mk rest
  | _ => s

/-- Accumulate decimal digits into a number. -/
def digitsToNat : List Char → Nat → Nat
  | [], acc => acc
  | c :: cs, acc => digitsToNat cs (acc * 10 + (c.toNat - 48))

/-- Parse a non-empty all-digit string. -/
def parseNat (s : String) : Option Nat :=
  if s.toList ≠ [] ∧ s.toList.all (·.isDigit) then some (digitsToNat s.toList 0)
  else none

/-- A string is a canonical array index (the only property keys under
which JavaScript arrays and strings expose their elements): digits only
and no leading zero (`"0"` is canonical, `"00"` and `"01"` are not). -/
def canonIdx (k : String) : Option Nat :=
  match parseNat k with
  | some n => if toString n = k then some n else none
  | none => none

/-- JavaScript property read `v[k]` for a receiver that is not
`null`/`undefined`; a missing property yields `undefined`.  Objects expose
their fields; arrays expose their elements under canonical indices and
their `length`; strings expose one-character strings under canonical
indices and their `length`; other primitives have no own properties. -/
def getD : Json → String → Json
  | .undefined, _ => .undefined
  | .null, _ => .undefined
  | .bool _, _ => .undefined
  | .num _, _ => .undefined
  | .obj fs, k => (List.lookup k fs).getD .undefined
  | .arr xs, k =>
      if k = "length" then .num (Int.ofNat xs.length)
      else match canonIdx k with
           | some i => (xs[i]?).getD .undefined
           | none => .undefined
  | .str s, k =>
      if k = "length" then .num (Int.ofNat s.length)
      else match canonIdx k with
           | some i => ((s.toList[i]?).map (fun c => Json.str (String.mk [c]))).getD .undefined
           | none => .undefined

/-- JavaScript optional-chaining read `v?.[k]`: `undefined` when the
receiver is `null`/`undefined`, an ordinary read otherwise. -/
def jsOptGet (v : Json) (k : String) : Json :=
  match v with
  | .null => .undefined
  | .undefined => .undefined
  | w => getD w k

/-- Model of `Object.keys`: field names of an object in insertion
order, element indices of an array or string (`length` is not
enumerable), nothing for other primitives. -/
def jsKeys : Json → List String
  | .obj fs => fs.map (·.1)
  | .arr xs => (List.range xs.length).map toString
  | .str s => (List.range s.length).map toString
  | _ => []

mutual
/-- JavaScript string coercion as performed by template literals:
`String(v)`. -/
def jsToString : Json → String
  | .undefined => "undefined"
  | .null => "null"
  | .bool b => if b then "true" else "false"
  | .num n => toString n
  | .str s => s
  | .arr xs => jsToStringElems xs
  | .obj _ => "[object Object]"
/-- Coercion of an array: `Array.prototype.join(",")`, where `null` and
`undefined` elements render as the empty string. -/
def jsToStringElems : List Json → String
  | [] => ""
  | [x] => (match x with | .undefined => "" | .null => "" | v => jsToString v)
  | x :: xs =>
      (match x with | .undefined => "" | .null => "" | v => jsToString v)
        ++ "," ++ jsToStringElems xs
end

/-- JavaScript `>` against the literal `0`, for the `length > 0` tests:
numbers compare directly, booleans coerce to 0/1, integer-literal
strings coerce to their value, everything else (including `NaN`-coercing
strings and object operands, which do not occur on the translated code
paths) compares false. -/
def jsGTzero : Json → Bool
  | .num n => 0 < n
  | .bool b => b
  | .str s => match parseNat s with | some n => 0 < n | none => false
  | _ => false

mutual
/-- All string values sitting under a `"$ref"` key anywhere in a value.
Used as the (finite) universe of reference pointers a sample-synthesis
run can ever push on its in-flight set, which bounds the recursion of
`generate`. -/
def refVals : Json → List String
  | .obj fs => refValsFields fs
  | .arr xs => refValsList xs
  | _ => []
def refValsList : List Json → List String
  | [] => []
  | x :: xs => refVals x ++ refValsList xs
def refValsFields : List (String × Json) → List String
  | [] => []
  | (k, v) :: fs =>
      (if k = "$ref" then (match v with | .str p => [p] | _ => []) else [])
        ++ refVals v ++ refValsFields fs
end

mutual
/-- Size measure on values used for the termination of `generate`. -/
def jsize : Json → Nat
  | .undefined => 1
  | .null => 1
  | .bool _ => 1
  | .num n => n.natAbs + 1
  | .str s => s.length + 1
  | .arr xs => jsizeList xs + 2
  | .obj fs => jsizeFields fs + 2
def jsizeList : List Json → Nat
  | [] => 0
  | x :: xs => jsize x + jsizeList xs + 1
def jsizeFields : List (String × Json) → Nat
  | [] => 0
  | (_, v) :: fs => jsize v + jsizeFields fs + 1
end

theorem jsize_pos (v : Json) : 1 ≤ jsize v := by
  cases v <;> simp [jsize]

theorem jsizeList_ge_length (xs : List Json) : xs.length ≤ jsizeList xs := by
  induction xs with
  | nil => simp [jsizeList]
  | cons x xs ih => have := jsize_pos x; simp [jsizeList]; omega

theorem jsize_le_of_mem {x : Json} {xs : List Json} (h : x ∈ xs) :
    jsize x ≤ jsizeList xs := by
  induction xs with
  | nil => cases h
  | cons y ys ih =>
      rcases List.mem_cons.mp h with rfl | h'
      · simp [jsizeList]; omega
      · have := ih h'; simp [jsizeList]; omega

theorem jsize_lookup_le {k : String} {fs : List (String × Json)} {v : Json}
    (h : List.lookup k fs = some v) : jsize v ≤ jsizeFields fs := by
  induction fs with
  | nil => simp [List.lookup] at h
  | cons p ps ih =>
      rcases p with ⟨k', v'⟩
      rw [List.lookup] at h
      cases hkk : (k == k') with
      | true =>
          rw [hkk] at h
          simp at h
          subst h
          simp [jsizeFields]; omega
      | false =>
          rw [hkk] at h
          simp at h
          have := ih h
          simp [jsizeFields]; omega

/-- Property reads never grow the size measure. -/
theorem jsize_getD_le (v : Json) (k : String) : jsize (getD v k) ≤ jsize v := by
  cases v with
  | obj fs =>
      simp only [getD]
      cases h : List.lookup k fs with
      | none => simp [jsize]
      | some w =>
          simp only [Option.getD]
          have := jsize_lookup_le h
          simp [jsize]; omega
  | arr xs =>
      simp only [getD]
      by_cases hl : k = "length"
      · have := jsizeList_ge_length xs
        simp [hl, jsize]; omega
      · simp only [hl, if_false]
        cases hc : canonIdx k with
        | none => simp [jsize]
        | some i =>
            cases hx : xs[i]? with
            | none => simp [hx, jsize]
            | some w =>
                have hmem : w ∈ xs := by
                  rcases List.getElem?_eq_some_iff.mp hx with ⟨hlt, hget⟩
                  exact hget ▸ List.getElem_mem hlt
                have := jsize_le_of_mem hmem
                simp only [hx, Option.getD]
                simp [jsize]; omega
  | str s =>
      simp only [getD]
      by_cases hl : k = "length"
      · simp [hl, jsize]
      · simp only [hl, if_false]
        cases hc : canonIdx k with
        | none => simp [jsize]
        | some i =>
            cases hx : s.toList[i]? with
            | none =>
                have hx' : s.data[i]? = none := hx
                simp [hx, hx', jsize]
            | some c =>
                have hlt : i < s.toList.length := by
                  rcases List.getElem?_eq_some_iff.mp hx with ⟨h', _⟩
                  exact h'
                have hlen : s.toList.length = s.length := rfl
                simp only [hx, Option.map, Option.getD]
                have h2 : jsize (Json.str (String.mk [c])) = 2 := rfl
                rw [h2]
                simp [jsize]
                omega
  | undefined => simp [getD, jsize]
  | null => simp [getD, jsize]
  | bool b => simp [getD, jsize]
  | num n => simp [getD, jsize]

/-- A truthy property read at a non-index, non-`length` key (every
schema keyword falls in this class) is strictly smaller than its
receiver: only objects have truthy properties at such keys. -/
theorem jsize_getD_lt (v : Json) (k : String) (hk : k ≠ "length")
    (hc : canonIdx k = none) (ht : truthy (getD v k) = true) :
    jsize (getD v k) + 1 < jsize v := by
  cases v with
  | obj fs =>
      simp only [getD] at ht ⊢
      cases h : List.lookup k fs with
      | none => rw [h] at ht; simp [Option.getD, truthy] at ht
      | some w =>
          rw [h] at ht
          simp only [Option.getD] at ht ⊢
          have := jsize_lookup_le h
          simp [jsize]; omega
  | arr xs => simp [getD, hk, hc, truthy] at ht
  | str s => simp [getD, hk, hc, truthy] at ht
  | undefined => simp [getD, truthy] at ht
  | null => simp [getD, truthy] at ht
  | bool b => simp [getD, truthy] at ht
  | num n => simp [getD, truthy] at ht

/-- Walk of `resolveRef`'s loop: follow the pointer segments from the
current node.  Reading a property of `null`/`undefined` raises a
`TypeError` (modelled as `.error ()`); an `undefined` read returns
JavaScript `null`; otherwise the walk continues and finally returns the
located node. -/
def walkRef : List String → Json → Except Unit Json
  | [], cur => .ok cur
  | p :: ps, cur =>
      match cur with
      | .null => .error ()
      | .undefined => .error ()
      | c =>
          match getD c p with
          | .undefined => .ok .null
          | v => walkRef ps v

/-- Model of `resolveRef(ref, fullDoc)`: return `null` for an empty
pointer or falsy document, otherwise strip a leading `#/` and walk the
slash-separated segments from the document root. -/
def resolveRef (ref : String) (fullDoc : Json) : Except Unit Json :=
  if ref = "" ∨ truthy fullDoc = false then .ok .null
  else walkRef (jsSplit '/' (stripHash ref)) fullDoc

mutual
/-- A value containing no `null` (and no `undefined`) anywhere:
documents in this class can never make `resolveRef`'s walk dereference
`null`. -/
def noNulls : Json → Bool
  | .undefined => false
  | .null => false
  | .bool _ => true
  | .num _ => true
  | .str _ => true
  | .arr xs => noNullsList xs
  | .obj fs => noNullsFields fs
def noNullsList : List Json → Bool
  | [] => true
  | x :: xs => noNulls x && noNullsList xs
def noNullsFields : List (String × Json) → Bool
  | [] => true
  | (_, v) :: fs => noNulls v && noNullsFields fs
end

/-- One space character, `n` times. -/
def spacesStr (n : Nat) : String := String.mk (List.replicate n ' ')

/-- Lower-case hexadecimal digit. -/
def hexDigit (n : Nat) : Char :=
  if n < 10 then Char.ofNat (48 + n) else Char.ofNat (87 + n)

/-- Four-digit hexadecimal rendering for `\uXXXX` escapes. -/
def hex4 (n : Nat) : String :=
  String.mk [hexDigit (n / 4096 % 16), hexDigit (n / 256 % 16),
             hexDigit (n / 16 % 16), hexDigit (n % 16)]

/-- JSON string escaping of one character. -/
def escChar (c : Char) : String :=
  if c = '"' then "\\\""
  else if c = '\\' then "\\\\"
  else if c = '\n' then "\\n"
  else if c = '\r' then "\\r"
  else if c = '\t' then "\\t"
  else if c.toNat = 8 then "\\b"
  else if c.toNat = 12 then "\\f"
  else if c.toNat < 32 then "\\u" ++ hex4 c.toNat
  else String.mk [c]

/-- JSON rendering of a string literal. -/
def quoteJson (s : String) : String :=
  "\"" ++ String.join (s.toList.map escChar) ++ "\""

mutual
/-- Model of `JSON.stringify(v, null, 2)` at indentation level `ind`:
`none` models the `undefined` result for an `undefined` top value. -/
def stringifyVal (ind : Nat) : Json → Option String
  | .undefined => none
  | .null => some "null"
  | .bool b => some (if b then "true" else "false")
  | .num n => some (toString n)
  | .str s => some (quoteJson s)
  | .arr xs =>
      some (if xs.isEmpty then "[]"
            else "[\n" ++ String.intercalate ",\n" (stringifyElems (ind + 2) xs)
                 ++ "\n" ++ spacesStr ind ++ "]")
  | .obj fs =>
      some (match stringifyFields (ind + 2) fs with
            | [] => "\x7b\x7d"
            | items =>
                "\x7b\n" ++ String.intercalate ",\n" items
                  ++ "\n" ++ spacesStr ind ++ "\x7d")
/-- Array elements, one rendered line each; `undefined` elements render
as `null`. -/
def stringifyElems (ind : Nat) : List Json → List String
  | [] => []
  | x :: xs => (spacesStr ind ++ ((stringifyVal ind x).getD "null")) :: stringifyElems ind xs
/-- Object fields, one rendered line each; fields whose value renders as
`undefined` are skipped. -/
def stringifyFields (ind : Nat) : List (String × Json) → List String
  | [] => []
  | (k, v) :: fs =>
      match stringifyVal ind v with
      | some sv => (spacesStr ind ++ quoteJson k ++ ": " ++ sv) :: stringifyFields ind fs
      | none => stringifyFields ind fs
end

/-- Model of the top-level `JSON.stringify(v, null, 2)`. -/
def jsonStringify (v : Json) : Option String := stringifyVal 0 v

/-- Setting one key in an object, as object spread does: an existing
key keeps its position and gets the new value, a new key is appended. -/
def setKey : List (String × Json) → String → Json → List (String × Json)
  | [], k, v => [(k, v)]
  | (k', v') :: rest, k, v =>
      if k' = k then (k, v) :: rest else (k', v') :: setKey rest k v

/-- Model of `combined = { ...combined, ...generated }` guarded by
`typeof generated === "object"`: objects contribute their fields, arrays
contribute their elements under their index keys (their own enumerable
properties), `null` spreads to nothing, and primitives and `undefined`
fail the `typeof` test and are skipped. -/
def spreadInto (acc : List (String × Json)) : Json → List (String × Json)
  | .obj fs => fs.foldl (fun a kv => setKey a kv.1 kv.2) acc
  | .arr xs => (xs.enum).foldl (fun a iv => setKey a (toString iv.1) iv.2) acc
  | _ => acc

/-- Number of reference pointers of the universe `L` not yet on the
in-flight set `seen`: the primary termination measure of `generate`. -/
def flen (L seen : List String) : Nat :=
  (L.filter (fun p => !seen.contains p)).length


theorem length_filter_mono {α : Type} (p q : α → Bool) (l : List α)
    (h : ∀ a, q a = true → p a = true) :
    (l.filter q).length ≤ (l.filter p).length := by
  induction l with
  | nil => simp
  | cons a l ih =>
      cases hq : q a with
      | true =>
          have hp := h a hq
          simp [List.filter, hp, hq]
          omega
      | false =>
          cases hp : p a with
          | true => simp [List.filter, hp, hq]; omega
          | false => simp [List.filter, hp, hq]; omega

theorem length_filter_lt {α : Type} (p q : α → Bool) (l : List α) (a : α)
    (h : ∀ b, q b = true → p b = true) (ha : a ∈ l)
    (hpa : p a = true) (hqa : q a = false) :
    (l.filter q).length < (l.filter p).length := by
  induction l with
  | nil => cases ha
  | cons b l ih =>
      rcases List.mem_cons.mp ha with rfl | hb
      · have hmono := length_filter_mono p q l h
        simp [List.filter, hpa, hqa]
        omega
      · cases hq : q b with
        | true =>
            have hp := h b hq
            have := ih hb
            simp [List.filter, hp, hq]
            omega
        | false =>
            have := ih hb
            cases hp : p b with
            | true => simp [List.filter, hp, hq]; omega
            | false => simp [List.filter, hp, hq]; omega

theorem contains_mono {seen : List String} {ptr x : String}
    (h : (ptr :: seen).contains x = false) : seen.contains x = false := by
  rw [List.contains_cons] at h
  rcases h2 : seen.contains x with _ | _
  · rfl
  · rw [h2] at h; simp at h

/-- Pushing a not-yet-seen pointer of the universe onto the in-flight
set strictly shrinks the measure. -/
theorem flen_cons_lt (L seen : List String) (ptr : String)
    (hmem : ptr ∈ L) (hnot : seen.contains ptr = false) :
    flen L (ptr :: seen) < flen L seen := by
  unfold flen
  refine length_filter_lt _ _ L ptr ?_ hmem ?_ ?_
  · intro b hb
    rcases h2 : seen.contains b with _ | _
    · rfl
    · exfalso
      have : (ptr :: seen).contains b = true := by
        rw [List.contains_cons, h2]
        simp
      rw [this] at hb
      simp at hb
  · rw [hnot]; rfl
  · rw [List.contains_cons]
    simp

theorem contains_mem {l : List String} {x : String} : l.contains x = true ↔ x ∈ l := by
  induction l with
  | nil => simp
  | cons a l ih => rw [List.contains_cons]; simp [ih]

theorem canonIdx_oneOf : canonIdx "oneOf" = none := by decide
theorem canonIdx_anyOf : canonIdx "anyOf" = none := by decide
theorem canonIdx_allOf : canonIdx "allOf" = none := by decide
theorem canonIdx_properties : canonIdx "properties" = none := by decide
theorem canonIdx_items : canonIdx "items" = none := by decide


mutual
/-- Model of the inner `generate` closure of `generateSampleJson`
(`swaggerService.ts` lines 76-138): synthesize a sample value for a
schema node.  `doc` is the full document, `now` models
`new Date().toISOString()`, and `seen` is the in-flight reference set
(`seenRefs`; the source mutates one shared set but always deletes a
pointer when unwinding, which is exactly a stack, modelled functionally
here).  `L` is a pre-computed universe of pointer strings used only to
bound the recursion: the guard `L.contains ptr` always holds when `L`
is `refVals schema ++ refVals doc` (every `$ref` string reachable in a
run is a `"$ref"` value inside the original schema or the document), so
its `.ok (.obj [])` fallback arm is unreachable on faithful runs. -/
def generate (L : List String) (doc : Json) (now : String) (seen : List String)
    (s : Json) : Except Unit Json :=
  if truthy s = false then .ok .null
  else
    -- Handle $ref
    if hr : truthy (getD s "$ref") = true then
      match getD s "$ref" with
      | .str ptr =>
          if hseen : seen.contains ptr = true then .ok (.obj [])
          else
            match resolveRef ptr doc with
            | .error e => .error e
            | .ok resolved =>
                if truthy resolved = true then
                  if hL : L.contains ptr = true then
                    generate L doc now (ptr :: seen) resolved
                  else .ok (.obj [])
                else .ok (.obj [])
      | _ => .error ()
    else
    -- Handle allOf (merge properties)
    if hao : truthy (getD s "allOf") = true then
      match hm : getD s "allOf" with
      | .arr subs =>
          (genList L doc now seen subs).map (fun gs => .obj (gs.foldl spreadInto []))
      | _ => .error ()
    else
    -- Handle oneOf/anyOf (just pick the first one)
    if hoo : truthy (jsOr (getD s "oneOf") (getD s "anyOf")) = true then
      generate L doc now seen (getD (jsOr (getD s "oneOf") (getD s "anyOf")) "0")
    else
    if hpr : ((isStrEq (getD s "type") "object" || !truthy (getD s "type"))
               && truthy (getD s "properties")) = true then
      (genProps L doc now seen (getD s "properties") (jsKeys (getD s "properties"))).map
        (fun kvs => .obj kvs)
    else
    if hit : (isStrEq (getD s "type") "array" && truthy (getD s "items")) = true then
      (generate L doc now seen (getD s "items")).map (fun e => .arr [e])
    else
    if isUndef (getD s "example") = false then .ok (getD s "example")
    else if isUndef (getD s "default") = false then .ok (getD s "default")
    else
      match getD s "type" with
      | .str "string" =>
          if isStrEq (getD s "format") "date-time" then .ok (.str now)
          else if isStrEq (getD s "format") "date" then
            .ok (.str ((jsSplit 'T' now).headD ""))
          else if isStrEq (getD s "format") "email" then .ok (.str "user@example.com")
          else if isStrEq (getD s "format") "uuid" then
            .ok (.str "123e4567-e89b-12d3-a456-426614174000")
          else if isStrEq (getD s "format") "uri" then .ok (.str "https://example.com")
          else if truthy (getD s "enum") then .ok (getD (getD s "enum") "0")
          else .ok (.str "sample_string")
      | .str "number" => .ok (.num 0)
      | .str "integer" => .ok (.num 0)
      | .str "boolean" => .ok (.bool true)
      | _ => .ok .null
  termination_by (flen L seen, jsize s, 0)
  decreasing_by
  · apply Prod.Lex.left
    exact flen_cons_lt L seen ptr (contains_mem.mp hL)
      (by rcases h2 : seen.contains ptr with _ | _
          · rfl
          · exact absurd h2 hseen)
  · apply Prod.Lex.right
    apply Prod.Lex.left
    have := jsize_getD_lt s "allOf" (by decide) canonIdx_allOf hao
    rw [hm] at this
    simp [jsize] at this
    omega
  · apply Prod.Lex.right
    apply Prod.Lex.left
    have h1 : jsize (jsOr (getD s "oneOf") (getD s "anyOf")) + 1 < jsize s := by
      unfold jsOr at hoo ⊢
      by_cases h : truthy (getD s "oneOf") = true
      · simp only [h, if_true]
        exact jsize_getD_lt s "oneOf" (by decide) canonIdx_oneOf h
      · have hf : truthy (getD s "oneOf") = false := by
          rcases h2 : truthy (getD s "oneOf") with _ | _
          · rfl
          · exact absurd h2 h
        rw [hf] at hoo ⊢
        simp only [Bool.false_eq_true, if_false] at hoo ⊢
        exact jsize_getD_lt s "anyOf" (by decide) canonIdx_anyOf hoo
    have h2 := jsize_getD_le (jsOr (getD s "oneOf") (getD s "anyOf")) "0"
    omega
  · apply Prod.Lex.right
    apply Prod.Lex.left
    have hp : truthy (getD s "properties") = true := by
      rcases h2 : truthy (getD s "properties") with _ | _
      · rw [h2, Bool.and_false] at hpr; exact absurd hpr (by simp)
      · rfl
    have := jsize_getD_lt s "properties" (by decide) canonIdx_properties hp
    omega
  · apply Prod.Lex.right
    apply Prod.Lex.left
    have hp : truthy (getD s "items") = true := by
      rcases h2 : truthy (getD s "items") with _ | _
      · rw [h2, Bool.and_false] at hit; exact absurd hit (by simp)
      · rfl
    have := jsize_getD_lt s "items" (by decide) canonIdx_items hp
    omega

/-- The `s.allOf.forEach` loop of `generate`: synthesize each member in
order (the merge of the results happens at the call site). -/
def genList (L : List String) (doc : Json) (now : String) (seen : List String) :
    List Json → Except Unit (List Json)
  | [] => .ok []
  | x :: xs => do
      let g ← generate L doc now seen x
      let gs ← genList L doc now seen xs
      .ok (g :: gs)
  termination_by xs => (flen L seen, jsizeList xs + 1, 0)
  decreasing_by
  · apply Prod.Lex.right
    apply Prod.Lex.left
    simp [jsizeList]
    omega
  · apply Prod.Lex.right
    apply Prod.Lex.left
    have := jsize_pos x
    simp [jsizeList]
    omega

/-- The `Object.keys(s.properties).forEach` loop of `generate`:
synthesize a value for each declared property key in order. -/
def genProps (L : List String) (doc : Json) (now : String) (seen : List String)
    (props : Json) : List String → Except Unit (List (String × Json))
  | [] => .ok []
  | k :: ks => do
      let v ← generate L doc now seen (getD props k)
      let kvs ← genProps L doc now seen props ks
      .ok ((k, v) :: kvs)
  termination_by ks => (flen L seen, jsize props + 1, ks.length)
  decreasing_by
  · apply Prod.Lex.right
    apply Prod.Lex.left
    have := jsize_getD_le props k
    omega
  · apply Prod.Lex.right
    apply Prod.Lex.right
    simp [List.length_cons]
end

/-- Model of `generateSampleJson(schema, fullDoc)` (`swaggerService.ts`
lines 73-147): a falsy schema returns the empty string before the
`try`; otherwise the sample is generated and rendered with
`JSON.stringify(sample, null, 2)`, and any exception raised during
traversal is caught and replaced by the fixed diagnostic string.  The
`Option` result models that `JSON.stringify` of an `undefined` sample
returns `undefined` rather than a string. -/
def generateSampleJson (schema : Json) (fullDoc : Json) (now : String) : Option String :=
  if truthy schema = false then some ""
  else
    match generate (refVals schema ++ refVals fullDoc) fullDoc now [] schema with
    | .error _ => some "Check Swagger Schema"
    | .ok sample => jsonStringify sample

/-- The `Endpoint` record built by `parseSwagger` (`swaggerService.ts`
lines 15-24 and 46-55).  `path` and `method` are the enumeration keys
(strings); every other field holds whatever value the document carried,
so they are modelled as `Json`. -/
structure Endpoint where
  path : String
  method : String
  summary : Json
  parameters : Json
  responses : Json
  requestBody : Json
  operationId : Json
  tags : Json
deriving Repr

/-- The record pushed by `parseSwagger` for one `path`/`method` pair:
method upper-cased, `summary` falling back to `description` and then to
`"<METHOD> <path>"`, `parameters` defaulting to `[]`, `responses`
defaulting to `{}`, and `requestBody`, `operationId` and `tags` copied
verbatim (no defaulting). -/
def mkEndpoint (path method : String) (op : Json) : Endpoint :=
  { path := path
    method := jsToUpper method
    summary := jsOr (getD op "summary")
                 (jsOr (getD op "description") (.str (jsToUpper method ++ " " ++ path)))
    parameters := jsOr (getD op "parameters") (.arr [])
    responses := jsOr (getD op "responses") (.obj [])
    requestBody := getD op "requestBody"
    operationId := getD op "operationId"
    tags := getD op "tags" }

/-- Model of `Object.keys(v)` where `v` may be `null`/`undefined`, in
which case JavaScript throws a `TypeError`. -/
def jsKeysE : Json → Except Unit (List String)
  | .null => .error ()
  | .undefined => .error ()
  | v => .ok (jsKeys v)

/-- Build the endpoint for one operation value: reading `op.summary` on
a `null`/`undefined` operation value throws. -/
def opToEndpoint (path m : String) (op : Json) : Except Unit Endpoint :=
  match op with
  | .null => .error ()
  | .undefined => .error ()
  | o => .ok (mkEndpoint path m o)

/-- The inner loop of `parseSwagger` for one path: enumerate the method
keys of `paths[path]` and build one endpoint per method. -/
def parseSwaggerMethods (paths : Json) (path : String) : List String → Except Unit (List Endpoint)
  | [] => .ok []
  | m :: ms => do
      let ep ← opToEndpoint path m (getD (getD paths path) m)
      let rest ← parseSwaggerMethods paths path ms
      .ok (ep :: rest)

/-- The outer loop of `parseSwagger`: enumerate the path keys in
document order.  `Object.keys(paths[path])` throws when a path entry is
`null`/`undefined`. -/
def parseSwaggerPaths (paths : Json) : List String → Except Unit (List Endpoint)
  | [] => .ok []
  | path :: rest => do
      let methods ← jsKeysE (getD paths path)
      let eps ← parseSwaggerMethods paths path methods
      let others ← parseSwaggerPaths paths rest
      .ok (eps ++ others)

/-- Model of `parseSwagger(data)` (`swaggerService.ts` lines 39-60):
`data.paths || {}` (reading `paths` on a `null`/`undefined` document
throws), then one endpoint per path/method key pair in document
order. -/
def parseSwagger (data : Json) : Except Unit (List Endpoint) := do
  let pathsRaw ← match data with
                 | .null => .error ()
                 | .undefined => .error ()
                 | d => .ok (getD d "paths")
  let paths := jsOr pathsRaw (.obj [])
  parseSwaggerPaths paths (jsKeys paths)

/-- The `TestCase` record (`swaggerService.ts` lines 26-37): ten string
fields.  Field names are the camel-cased versions of the original
quoted column names. -/
structure TestCase where
  testCaseId : String
  endpoint : String
  method : String
  testScenario : String
  testSteps : String
  prerequisite : String
  testData : String
  expectedResult : String
  actualResult : String
  status : String
deriving Repr

/-- Is the method one of the body-carrying methods that trigger the two
extra negative cases (`POST`/`PUT`/`PATCH`)? -/
def isBodyMethod (m : String) : Bool :=
  m == "POST" || m == "PUT" || m == "PATCH"

/-- The `ep.method === "POST" ? "201 Created" : "200 OK"` expected
status of the positive scenario. -/
def successStatus (m : String) : String :=
  if m == "POST" then "201 Created" else "200 OK"

/-- One rendered `name=example-or-value` pair of the positive
test-data; reading `.name` on a `null`/`undefined` array entry
throws. -/
def paramPair (p : Json) : Except Unit String :=
  match p with
  | .null => .error ()
  | .undefined => .error ()
  | q => .ok (jsToString (getD q "name") ++ "=" ++ jsToString (jsOr (getD q "example") (.str "value")))

/-- `ep.parameters.map(...)` over the parameter array: `.map` on a
non-array value throws. -/
def paramPairs : Json → Except Unit (List String)
  | .arr xs => xs.mapM paramPair
  | _ => .error ()

/-- The `Test Data` of the positive scenario: a rendered request-body
sample when a JSON request-body schema is declared (an `undefined`
sample string interpolates as `"undefined"`), else rendered parameter
pairs when `parameters.length > 0`, else a fixed placeholder. -/
def positiveTestData (ep : Endpoint) (doc : Json) (now : String) : Except Unit String :=
  let schemaJ := jsOptGet (jsOptGet (jsOptGet ep.requestBody "content") "application/json") "schema"
  if truthy schemaJ = true then
    .ok ("Request Body:\n" ++ ((generateSampleJson schemaJ doc now).getD "undefined"))
  else if jsGTzero (getD ep.parameters "length") = true then
    (paramPairs ep.parameters).map (fun ss => "Query/Path Params: " ++ String.intercalate ", " ss)
  else .ok "Valid parameters as per Swagger spec"

/-- The `ep.parameters.filter((p) => p.required)` loop: keep the
entries with truthy `required`; reading `.required` on a
`null`/`undefined` entry throws. -/
def requiredFilterList : List Json → Except Unit (List Json)
  | [] => .ok []
  | p :: ps => do
      let keep ← match p with
                 | .null => .error ()
                 | .undefined => .error ()
                 | q => .ok (truthy (getD q "required"))
      let rest ← requiredFilterList ps
      .ok (if keep then p :: rest else rest)

/-- `ep.parameters.filter((p) => p.required)`: `.filter` on a non-array
value throws. -/
def requiredFilter : Json → Except Unit (List Json)
  | .arr xs => requiredFilterList xs
  | _ => .error ()

/-- Build one test-case record; every record of a run carries the id
`TC-<n>` where `n` is the value of the shared counter at its
emission. -/
def tcMk (n : Nat) (ep : Endpoint) (scenario steps prereq data expected : String) : TestCase :=
  { testCaseId := "TC-" ++ toString n
    endpoint := ep.path
    method := ep.method
    testScenario := scenario
    testSteps := steps
    prerequisite := prereq
    testData := data
    expectedResult := expected
    actualResult := ""
    status := "" }

/-- The ordered list of case builders fired for one endpoint, each
still awaiting its counter value: positive and unauthorized always; the
missing-mandatory-parameter case only when the required-filter is
non-empty; the unsupported-content-type and malformed-body cases only
for `POST`/`PUT`/`PATCH`; the invalid-data-types case always. -/
def epBuilders (ep : Endpoint) (testData : String) (mand : List Json) :
    List (Nat → TestCase) :=
  [fun n => tcMk n ep
      ("Verify successful " ++ ep.method ++ " request to " ++ ep.path)
      ("1. Prepare " ++ ep.method ++ " request for " ++ ep.path
        ++ "\n2. Send request with valid parameters/body\n3. Verify response status and body")
      "API Service is up and running"
      testData
      ("Response status should be " ++ successStatus ep.method
        ++ " and body should contain expected fields."),
   fun n => tcMk n ep
      ("Verify " ++ ep.method ++ " request to " ++ ep.path ++ " without authentication")
      ("1. Prepare " ++ ep.method ++ " request for " ++ ep.path
        ++ "\n2. Send request without Auth token\n3. Verify response status")
      "Endpoint requires authentication"
      "No Auth Header"
      "Response status should be 401 Unauthorized."]
  ++ (if mand.isEmpty then []
      else [fun n => tcMk n ep
        ("Verify " ++ ep.method ++ " request to " ++ ep.path ++ " with missing mandatory parameters")
        ("1. Prepare " ++ ep.method ++ " request for " ++ ep.path
          ++ "\n2. Remove mandatory parameter: " ++ jsToString (getD (mand.headD .undefined) "name")
          ++ "\n3. Send request\n4. Verify error response")
        "API Service is up and running"
        ("Missing " ++ jsToString (getD (mand.headD .undefined) "name"))
        "Response status should be 400 Bad Request with validation error message."])
  ++ (if isBodyMethod ep.method then
        [fun n => tcMk n ep
          ("Verify " ++ ep.method ++ " request to " ++ ep.path ++ " with unsupported Content-Type")
          ("1. Prepare " ++ ep.method ++ " request for " ++ ep.path
            ++ "\n2. Set Content-Type to \x27text/plain\x27\n3. Send request\n4. Verify error response")
          "API Service is up and running"
          "Content-Type: text/plain"
          "Response status should be 415 Unsupported Media Type.",
         fun n => tcMk n ep
          ("Verify " ++ ep.method ++ " request to " ++ ep.path ++ " with malformed JSON body")
          ("1. Prepare " ++ ep.method ++ " request for " ++ ep.path
            ++ "\n2. Provide malformed JSON string in body\n3. Send request\n4. Verify error response")
          "API Service is up and running"
          "\x7b \x22invalid\x22: json \x7d"
          "Response status should be 400 Bad Request."]
      else [])
  ++ [fun n => tcMk n ep
      ("Verify " ++ ep.method ++ " request to " ++ ep.path ++ " with invalid data types")
      ("1. Prepare " ++ ep.method ++ " request for " ++ ep.path
        ++ "\n2. Provide string where integer is expected (or vice versa)\n3. Send request\n4. Verify error response")
      "API Service is up and running"
      "Invalid data types for parameters"
      "Response status should be 400 Bad Request or 422 Unprocessable Entity."]

/-- All cases emitted for one endpoint, starting the shared counter at
`c`; returns the cases and the new counter value.  Computing the
positive test-data and the required-parameter filter can throw (and in
the source this aborts the whole `generateTestCases` call). -/
def epCases (doc : Json) (now : String) (ep : Endpoint) (c : Nat) :
    Except Unit (List TestCase × Nat) := do
  let td ← positiveTestData ep doc now
  let mand ← requiredFilter ep.parameters
  let bs := epBuilders ep td mand
  .ok ((bs.enum.map (fun p => p.2 (c + p.1))), c + bs.length)

/-- The `endpoints.forEach` loop of `generateTestCases`, threading the
shared id counter. -/
def generateTestCasesAux (doc : Json) (now : String) : List Endpoint → Nat → Except Unit (List TestCase)
  | [], _ => .ok []
  | ep :: eps, c => do
      let (cs, c2) ← epCases doc now ep c
      let rest ← generateTestCasesAux doc now eps c2
      .ok (cs ++ rest)

/-- Model of `generateTestCases(endpoints, fullDoc)`
(`swaggerService.ts` lines 149-254): the counter starts at 1. -/
def generateTestCases (eps : List Endpoint) (doc : Json) (now : String) :
    Except Unit (List TestCase) :=
  generateTestCasesAux doc now eps 1

/-- Does any entry of a parameters array carry a truthy `required`
field?  (The emission condition of the missing-mandatory-parameter
case, on runs where the filter does not throw.) -/
def hasRequiredParam : Json → Bool
  | .arr ps => ps.any (fun p => truthy (getD p "required"))
  | _ => false

theorem epCases_ok {doc : Json} {now : String} {ep : Endpoint} {c : Nat}
    {cs : List TestCase} {c' : Nat}
    (h : epCases doc now ep c = .ok (cs, c')) :
    ∃ td mand, positiveTestData ep doc now = .ok td ∧
      requiredFilter ep.parameters = .ok mand ∧
      cs = (epBuilders ep td mand).enum.map (fun p => p.2 (c + p.1)) ∧
      c' = c + (epBuilders ep td mand).length := by
  unfold epCases at h
  cases h1 : positiveTestData ep doc now with
  | error e => rw [h1] at h; simp [bind, Except.bind] at h
  | ok td =>
      rw [h1] at h
      cases h2 : requiredFilter ep.parameters with
      | error e => rw [h2] at h; simp [bind, Except.bind] at h
      | ok mand =>
          rw [h2] at h
          simp [bind, Except.bind, pure, Except.pure] at h
          exact ⟨td, mand, rfl, rfl, h.1.symm, h.2.symm⟩

theorem epBuilders_length (ep : Endpoint) (td : String) (mand : List Json) :
    (epBuilders ep td mand).length =
      3 + (if mand.isEmpty = true then 0 else 1)
        + (if isBodyMethod ep.method = true then 2 else 0) := by
  unfold epBuilders
  rcases h1 : mand.isEmpty with _ | _ <;> rcases h2 : isBodyMethod ep.method with _ | _ <;>
    simp [h1, h2]

theorem epBuilders_id (ep : Endpoint) (td : String) (mand : List Json) :
    ∀ b ∈ epBuilders ep td mand, ∀ n, (b n).testCaseId = "TC-" ++ toString n := by
  intro b hb n
  unfold epBuilders at hb
  rcases h1 : mand.isEmpty with _ | _ <;> rcases h2 : isBodyMethod ep.method with _ | _ <;>
    rw [h1, h2] at hb <;> simp at hb <;>
    first
    | (rcases hb with rfl | rfl | rfl <;> simp [tcMk])
    | (rcases hb with rfl | rfl | rfl | rfl <;> simp [tcMk])
    | (rcases hb with rfl | rfl | rfl | rfl | rfl <;> simp [tcMk])
    | (rcases hb with rfl | rfl | rfl | rfl | rfl | rfl <;> simp [tcMk])

theorem requiredFilterList_empty {xs : List Json} {l : List Json}
    (h : requiredFilterList xs = .ok l) :
    l.isEmpty = !xs.any (fun p => truthy (getD p "required")) := by
  induction xs generalizing l with
  | nil => simp [requiredFilterList] at h; subst h; simp
  | cons p ps ih =>
      unfold requiredFilterList at h
      cases p with
      | null => simp [bind, Except.bind] at h
      | undefined => simp [bind, Except.bind] at h
      | bool b =>
          cases h3 : requiredFilterList ps with
          | error e => rw [h3] at h; simp [bind, Except.bind] at h
          | ok rest =>
              rw [h3] at h
              simp [bind, Except.bind, pure, Except.pure] at h
              subst h
              have := ih h3
              rcases hk : truthy (getD (Json.bool b) "required") with _ | _ <;>
                simp [hk, this]
      | num n =>
          cases h3 : requiredFilterList ps with
          | error e => rw [h3] at h; simp [bind, Except.bind] at h
          | ok rest =>
              rw [h3] at h
              simp [bind, Except.bind, pure, Except.pure] at h
              subst h
              have := ih h3
              rcases hk : truthy (getD (Json.num n) "required") with _ | _ <;>
                simp [hk, this]
      | str s =>
          cases h3 : requiredFilterList ps with
          | error e => rw [h3] at h; simp [bind, Except.bind] at h
          | ok rest =>
              rw [h3] at h
              simp [bind, Except.bind, pure, Except.pure] at h
              subst h
              have := ih h3
              rcases hk : truthy (getD (Json.str s) "required") with _ | _ <;>
                simp [hk, this]
      | arr xs2 =>
          cases h3 : requiredFilterList ps with
          | error e => rw [h3] at h; simp [bind, Except.bind] at h
          | ok rest =>
              rw [h3] at h
              simp [bind, Except.bind, pure, Except.pure] at h
              subst h
              have := ih h3
              rcases hk : truthy (getD (Json.arr xs2) "required") with _ | _ <;>
                simp [hk, this]
      | obj fs =>
          cases h3 : requiredFilterList ps with
          | error e => rw [h3] at h; simp [bind, Except.bind] at h
          | ok rest =>
              rw [h3] at h
              simp [bind, Except.bind, pure, Except.pure] at h
              subst h
              have := ih h3
              rcases hk : truthy (getD (Json.obj fs) "required") with _ | _ <;>
                simp [hk, this]

theorem requiredFilter_empty {params : Json} {mand : List Json}
    (h : requiredFilter params = .ok mand) :
    mand.isEmpty = !hasRequiredParam params := by
  cases params with
  | arr xs =>
      simp only [requiredFilter] at h
      rw [requiredFilterList_empty h]
      simp [hasRequiredParam]
  | undefined => simp [requiredFilter] at h
  | null => simp [requiredFilter] at h
  | bool b => simp [requiredFilter] at h
  | num n => simp [requiredFilter] at h
  | str s => simp [requiredFilter] at h
  | obj fs => simp [requiredFilter] at h

theorem epCases_length {doc : Json} {now : String} {ep : Endpoint} {c : Nat}
    {cs : List TestCase} {c' : Nat}
    (h : epCases doc now ep c = .ok (cs, c')) :
    cs.length = 3 + (if hasRequiredParam ep.parameters = true then 1 else 0)
        + (if isBodyMethod ep.method = true then 2 else 0)
      ∧ c' = c + cs.length := by
  obtain ⟨td, mand, h1, h2, h3, h4⟩ := epCases_ok h
  have hlen := epBuilders_length ep td mand
  have hemp := requiredFilter_empty h2
  have hcs : cs.length = (epBuilders ep td mand).length := by
    rw [h3]; simp
  constructor
  · rw [hcs, hlen]
    rcases hrp : hasRequiredParam ep.parameters with _ | _
    · rw [hrp] at hemp; simp at hemp; simp [hemp]
    · rw [hrp] at hemp; simp at hemp; simp [hemp]
  · rw [hcs]; exact h4

theorem epCases_ids {doc : Json} {now : String} {ep : Endpoint} {c : Nat}
    {cs : List TestCase} {c' : Nat}
    (h : epCases doc now ep c = .ok (cs, c')) :
    ∀ i, (hi : i < cs.length) → (cs.get ⟨i, hi⟩).testCaseId = "TC-" ++ toString (c + i) := by
  obtain ⟨td, mand, h1, h2, h3, h4⟩ := epCases_ok h
  subst h3
  intro i hi
  have hib : i < (epBuilders ep td mand).length := by simpa using hi
  simp only [List.get_eq_getElem, List.getElem_map, List.getElem_enum]
  exact epBuilders_id ep td mand _ (List.getElem_mem hib) (c + i)

theorem generateTestCasesAux_ok {doc : Json} {now : String} {ep : Endpoint}
    {eps : List Endpoint} {c : Nat} {cases : List TestCase}
    (h : generateTestCasesAux doc now (ep :: eps) c = .ok cases) :
    ∃ cs c2 rest, epCases doc now ep c = .ok (cs, c2) ∧
      generateTestCasesAux doc now eps c2 = .ok rest ∧ cases = cs ++ rest := by
  unfold generateTestCasesAux at h
  cases h1 : epCases doc now ep c with
  | error e => rw [h1] at h; simp [bind, Except.bind] at h
  | ok pair =>
      rcases pair with ⟨cs, c2⟩
      rw [h1] at h
      simp only [bind, Except.bind] at h
      cases h2 : generateTestCasesAux doc now eps c2 with
      | error e => rw [h2] at h; simp at h
      | ok rest =>
          rw [h2] at h
          simp at h
          exact ⟨cs, c2, rest, rfl, h2, h.symm⟩

theorem generateTestCasesAux_ids {doc : Json} {now : String} :
    ∀ (eps : List Endpoint) (c : Nat) (cases : List TestCase),
    generateTestCasesAux doc now eps c = .ok cases →
    ∀ i, (hi : i < cases.length) →
      (cases.get ⟨i, hi⟩).testCaseId = "TC-" ++ toString (c + i) := by
  intro eps
  induction eps with
  | nil =>
      intro c cases h i hi
      simp [generateTestCasesAux] at h
      subst h
      simp at hi
  | cons ep eps ih =>
      intro c cases h i hi
      obtain ⟨cs, c2, rest, h1, h2, h3⟩ := generateTestCasesAux_ok h
      subst h3
      have hc2 : c2 = c + cs.length := (epCases_length h1).2
      by_cases hlt : i < cs.length
      · have := epCases_ids h1 i hlt
        simp only [List.get_eq_getElem] at this ⊢
        rw [List.getElem_append_left hlt]
        exact this
      · push_neg at hlt
        have hi2 : i - cs.length < rest.length := by
          simp [List.length_append] at hi
          omega
        have := ih c2 rest h2 (i - cs.length) hi2
        simp only [List.get_eq_getElem] at this ⊢
        rw [List.getElem_append_right hlt]
        rw [this]
        have harg : c2 + (i - cs.length) = c + i := by omega
        rw [harg]

theorem generateTestCasesAux_len {doc : Json} {now : String} :
    ∀ (eps : List Endpoint) (c : Nat) (cases : List TestCase),
    generateTestCasesAux doc now eps c = .ok cases →
    3 * eps.length ≤ cases.length := by
  intro eps
  induction eps with
  | nil => intro c cases h; simp
  | cons ep eps ih =>
      intro c cases h
      obtain ⟨cs, c2, rest, h1, h2, h3⟩ := generateTestCasesAux_ok h
      subst h3
      have hlen := (epCases_length h1).1
      have := ih c2 rest h2
      simp [List.length_append, List.length_cons]
      have h3 : 3 ≤ cs.length := by
        rw [hlen]
        rcases hasRequiredParam ep.parameters with _ | _ <;>
          rcases isBodyMethod ep.method with _ | _ <;> simp
      omega

/-- The full simp-evaluation set is long; we keep the concrete
evaluation lemmas for the synthesizer in one place by proving
per-witness `isOk` facts with it. -/
theorem epCases_get_noparams_isOk :
    (epCases (.obj []) "T" (mkEndpoint "/p" "get" (.obj [])) 1).isOk = true := by
  simp [epCases, positiveTestData, requiredFilter, requiredFilterList, epBuilders,
        mkEndpoint, jsOptGet, getD, jsOr, truthy, List.lookup, jsGTzero, canonIdx,
        parseNat, isBodyMethod, bind, Except.bind, pure, Except.pure, jsToUpper, upChar,
        Except.isOk, Except.toBool]

/-- Claim C1, counterexample: the code emits the missing-mandatory case
for any truthy `required` value, not only for `required = true`.  A GET
operation with one parameter carrying `required: 1` yields 4 cases,
while the claimed formula (3, since no parameter has `required = true`,
and GET adds nothing) predicts 3. -/
theorem C1_counterexample :
    (Except.map (fun cs => cs.length)
      (generateTestCases
        [mkEndpoint "/p" "get" (.obj [("parameters",
            .arr [.obj [("name", .str "q"), ("required", .num 1)]])])]
        (.obj []) "T")) = .ok 4
    ∧ getD (.obj [("name", .str "q"), ("required", .num 1)]) "required" = .num 1
    ∧ Json.num 1 ≠ Json.bool true
    ∧ (mkEndpoint "/p" "get" (.obj [("parameters",
        .arr [.obj [("name", .str "q"), ("required", .num 1)]])])).method = "GET"
    ∧ isBodyMethod "GET" = false
    ∧ (4 : Nat) ≠ 3 := by
  refine ⟨?_, by simp [getD, List.lookup], by simp, by rfl, by rfl, by simp⟩
  simp [generateTestCases, generateTestCasesAux, epCases, positiveTestData, requiredFilter,
        requiredFilterList, epBuilders, mkEndpoint, jsOptGet, getD, jsOr, truthy, List.lookup,
        jsGTzero, canonIdx, parseNat, paramPairs, paramPair, jsToString, isBodyMethod,
        bind, Except.bind, pure, Except.pure, jsToUpper, upChar, List.mapM.loop,
        List.enum, List.enumFrom, tcMk, Except.map]

/-- Claim C1 as amended: for every run of the synthesizer that
completes, each operation contributes exactly 3 cases, plus 1 when some
parameter has a truthy `required` field (not only the literal `true`),
plus 2 when the method is POST/PUT/PATCH; consequently a completed run
over any endpoint list yields at least 3 cases per endpoint. -/
theorem C1_per_operation_count :
    (∀ (doc : Json) (now : String) (ep : Endpoint) (c : Nat) (cs : List TestCase) (c' : Nat),
      epCases doc now ep c = .ok (cs, c') →
      cs.length = 3 + (if hasRequiredParam ep.parameters = true then 1 else 0)
        + (if isBodyMethod ep.method = true then 2 else 0))
    ∧ (∀ (eps : List Endpoint) (doc : Json) (now : String) (cases : List TestCase),
      generateTestCases eps doc now = .ok cases → 3 * eps.length ≤ cases.length) := by
  constructor
  · intro doc now ep c cs c' h
    exact (epCases_length h).1
  · intro eps doc now cases h
    exact generateTestCasesAux_len eps 1 cases h

/-- Witness for C1: a GET endpoint with no parameters gets exactly
`3 + 0 + 0` cases. -/
theorem C1_witness :
    Except.map (fun r => r.1.length)
      (epCases (.obj []) "T" (mkEndpoint "/p" "get" (.obj [])) 1) = .ok 3 := by
  cases hok : epCases (.obj []) "T" (mkEndpoint "/p" "get" (.obj [])) 1 with
  | error e =>
      exfalso
      have h2 := epCases_get_noparams_isOk
      rw [hok] at h2
      simp [Except.isOk, Except.toBool] at h2
  | ok r =>
      rcases r with ⟨cs, c'⟩
      have hlen := C1_per_operation_count.1 (.obj []) "T" _ 1 cs c' hok
      simp [Except.map]
      rw [hlen]
      rfl

/-- Claim C2: in every completed run, the case at position `i` (from 0)
carries the identifier `TC-(1+i)`: identifiers are dense, strictly
increasing from 1, and independent of operation boundaries. -/
theorem C2_sequential_ids :
    ∀ (eps : List Endpoint) (doc : Json) (now : String) (cases : List TestCase),
      generateTestCases eps doc now = .ok cases →
      ∀ i, (hi : i < cases.length) →
        (cases.get ⟨i, hi⟩).testCaseId = "TC-" ++ toString (1 + i) := by
  intro eps doc now cases h i hi
  exact generateTestCasesAux_ids eps 1 cases h i hi

/-- Witness for C2: one GET endpoint yields ids TC-1, TC-2, TC-3. -/
theorem C2_witness :
    Except.map (fun cases => cases.map (fun tc => tc.testCaseId))
      (generateTestCases [mkEndpoint "/p" "get" (.obj [])] (.obj []) "T")
      = .ok ["TC-1", "TC-2", "TC-3"] := by
  cases hok : generateTestCases [mkEndpoint "/p" "get" (.obj [])] (.obj []) "T" with
  | error e =>
      exfalso
      have h2 : (generateTestCases [mkEndpoint "/p" "get" (.obj [])] (.obj []) "T").isOk = true := by
        simp [generateTestCases, generateTestCasesAux, epCases, positiveTestData, requiredFilter,
              requiredFilterList, mkEndpoint, jsOptGet, getD, jsOr, truthy, List.lookup,
              jsGTzero, canonIdx, parseNat, bind, Except.bind, pure, Except.pure,
              jsToUpper, upChar, Except.isOk, Except.toBool]
      rw [hok] at h2
      simp [Except.isOk, Except.toBool] at h2
  | ok cases =>
      have hlen : cases.length = 3 := by
        obtain ⟨cs, c2, rest, h1, h2, h3⟩ := generateTestCasesAux_ok hok
        have hrest : rest = [] := by
          simp [generateTestCasesAux] at h2
          exact h2
        have hcs := (epCases_length h1).1
        have hform : (3 : Nat) + (if hasRequiredParam (mkEndpoint "/p" "get" (.obj [])).parameters = true then 1 else 0)
            + (if isBodyMethod (mkEndpoint "/p" "get" (.obj [])).method = true then 2 else 0) = 3 := by rfl
        rw [hform] at hcs
        simp [h3, hrest, hcs]
      have hid0 := C2_sequential_ids _ _ _ _ hok 0 (by rw [hlen]; omega)
      have hid1 := C2_sequential_ids _ _ _ _ hok 1 (by rw [hlen]; omega)
      have hid2 := C2_sequential_ids _ _ _ _ hok 2 (by rw [hlen]; omega)
      rcases cases with _ | ⟨a, _ | ⟨b, _ | ⟨c, _ | ⟨d, tl⟩⟩⟩⟩ <;> simp at hlen
      simp [List.get] at hid0 hid1 hid2
      simp [Except.map, hid0, hid1, hid2]
      exact ⟨rfl, rfl, rfl⟩

/-- Claim C8: on every completed per-operation emission, the first
(positive) case's expected result names `201 Created` exactly when the
method is `POST`, and `200 OK` otherwise. -/
theorem C8_positive_expected_status :
    ∀ (doc : Json) (now : String) (ep : Endpoint) (c : Nat) (cs : List TestCase) (c' : Nat),
      epCases doc now ep c = .ok (cs, c') →
      cs.head?.map (fun tc => tc.expectedResult)
        = some ("Response status should be "
            ++ (if ep.method = "POST" then "201 Created" else "200 OK")
            ++ " and body should contain expected fields.") := by
  intro doc now ep c cs c' h
  obtain ⟨td, mand, h1, h2, h3, h4⟩ := epCases_ok h
  subst h3
  simp [epBuilders, tcMk, successStatus]

/-- Witness for C8: a POST endpoint expects `201 Created`, a GET
endpoint expects `200 OK`. -/
theorem C8_witness :
    Except.map (fun r => r.1.head?.map (fun tc => tc.expectedResult))
      (epCases (.obj []) "T" (mkEndpoint "/p" "post" (.obj [])) 1)
      = .ok (some "Response status should be 201 Created and body should contain expected fields.")
    ∧ Except.map (fun r => r.1.head?.map (fun tc => tc.expectedResult))
      (epCases (.obj []) "T" (mkEndpoint "/p" "get" (.obj [])) 1)
      = .ok (some "Response status should be 200 OK and body should contain expected fields.") := by
  constructor
  · cases hok : epCases (.obj []) "T" (mkEndpoint "/p" "post" (.obj [])) 1 with
    | error e =>
        exfalso
        have h2 : (epCases (.obj []) "T" (mkEndpoint "/p" "post" (.obj [])) 1).isOk = true := by
          simp [epCases, positiveTestData, requiredFilter, requiredFilterList, epBuilders,
                mkEndpoint, jsOptGet, getD, jsOr, truthy, List.lookup, jsGTzero, canonIdx,
                parseNat, isBodyMethod, bind, Except.bind, pure, Except.pure, jsToUpper, upChar,
                Except.isOk, Except.toBool]
        rw [hok] at h2
        simp [Except.isOk, Except.toBool] at h2
    | ok r =>
        rcases r with ⟨cs, c'⟩
        have hhead := C8_positive_expected_status (.obj []) "T" _ 1 cs c' hok
        have hm : (mkEndpoint "/p" "post" (.obj [])).method = "POST" := rfl
        rw [hm] at hhead
        simp at hhead
        cases hh : cs.head? with
        | none => rw [hh] at hhead; simp at hhead
        | some a =>
            rw [hh] at hhead
            simp at hhead
            simp [Except.map, hh, hhead]
  · cases hok : epCases (.obj []) "T" (mkEndpoint "/p" "get" (.obj [])) 1 with
    | error e =>
        exfalso
        have h2 := epCases_get_noparams_isOk
        rw [hok] at h2
        simp [Except.isOk, Except.toBool] at h2
    | ok r =>
        rcases r with ⟨cs, c'⟩
        have hhead := C8_positive_expected_status (.obj []) "T" _ 1 cs c' hok
        have hm : (mkEndpoint "/p" "get" (.obj [])).method = "GET" := rfl
        rw [hm] at hhead
        simp at hhead
        cases hh : cs.head? with
        | none => rw [hh] at hhead; simp at hhead
        | some a =>
            rw [hh] at hhead
            simp at hhead
            simp [Except.map, hh, hhead]

theorem opToEndpoint_ok {path m : String} {op : Json} {ep : Endpoint}
    (h : opToEndpoint path m op = .ok ep) : ep = mkEndpoint path m op := by
  cases op <;> simp [opToEndpoint] at h <;> exact h.symm

theorem parseSwaggerMethods_mem {paths : Json} {path : String} :
    ∀ {ms : List String} {eps : List Endpoint},
      parseSwaggerMethods paths path ms = .ok eps →
      ∀ ep ∈ eps, ∃ m o, ep = mkEndpoint path m o := by
  intro ms
  induction ms with
  | nil =>
      intro eps h ep hep
      simp [parseSwaggerMethods] at h
      subst h
      cases hep
  | cons m ms ih =>
      intro eps h ep hep
      unfold parseSwaggerMethods at h
      cases h1 : opToEndpoint path m (getD (getD paths path) m) with
      | error e => rw [h1] at h; simp [bind, Except.bind] at h
      | ok ep0 =>
          rw [h1] at h
          simp only [bind, Except.bind] at h
          cases h2 : parseSwaggerMethods paths path ms with
          | error e => rw [h2] at h; simp at h
          | ok rest =>
              rw [h2] at h
              simp at h
              subst h
              rcases List.mem_cons.mp hep with rfl | hmem
              · exact ⟨m, _, opToEndpoint_ok h1⟩
              · exact ih h2 ep hmem

theorem parseSwaggerPaths_mem {paths : Json} :
    ∀ {keys : List String} {eps : List Endpoint},
      parseSwaggerPaths paths keys = .ok eps →
      ∀ ep ∈ eps, ∃ p m o, ep = mkEndpoint p m o := by
  intro keys
  induction keys with
  | nil =>
      intro eps h ep hep
      simp [parseSwaggerPaths] at h
      subst h
      cases hep
  | cons key keys ih =>
      intro eps h ep hep
      unfold parseSwaggerPaths at h
      cases h1 : jsKeysE (getD paths key) with
      | error e => rw [h1] at h; simp [bind, Except.bind] at h
      | ok methods =>
          rw [h1] at h
          simp only [bind, Except.bind] at h
          cases h2 : parseSwaggerMethods paths key methods with
          | error e => rw [h2] at h; simp at h
          | ok left =>
              rw [h2] at h
              cases h3 : parseSwaggerPaths paths keys with
              | error e => rw [h3] at h; simp at h
              | ok rest =>
                  rw [h3] at h
                  simp at h
                  subst h
                  rcases List.mem_append.mp hep with hmem | hmem
                  · obtain ⟨m, o, ho⟩ := parseSwaggerMethods_mem h2 ep hmem
                    exact ⟨key, m, o, ho⟩
                  · exact ih h3 ep hmem

/-- Claim C9, counterexample: an operation that omits `tags` yields an
endpoint whose `tags` is `undefined` — the source line `tags: op.tags`
has no `|| []` default, unlike `parameters` and `responses` — so the
claimed "tags defaults to an empty collection" is false. -/
theorem C9_counterexample :
    parseSwagger (.obj [("paths", .obj [("/p", .obj [("get", .obj [])])])])
      = .ok [mkEndpoint "/p" "get" (.obj [])]
    ∧ (mkEndpoint "/p" "get" (.obj [])).tags = Json.undefined
    ∧ Json.undefined ≠ Json.arr [] := by
  refine ⟨?_, rfl, by simp⟩
  simp [parseSwagger, parseSwaggerPaths, parseSwaggerMethods, opToEndpoint, jsKeys, jsKeysE,
        getD, jsOr, truthy, List.lookup, bind, Except.bind, pure, Except.pure]

/-- Claim C9 as amended: every endpoint produced by `parseSwagger` is
`mkEndpoint` of its path/method/operation; `mkEndpoint` upper-cases the
method, defaults omitted `parameters` to `[]` and omitted `responses`
to `{}`, copies `tags` verbatim (leaving it `undefined` when the
operation omits tags, with no empty-collection default), and falls back
for `summary` to `description` and then to `"<METHOD> <path>"`. -/
theorem C9_endpoint_shape :
    (∀ (data : Json) (eps : List Endpoint), parseSwagger data = .ok eps →
      ∀ ep ∈ eps, ∃ p m o, ep = mkEndpoint p m o)
    ∧ (∀ (path method : String) (op : Json),
        (mkEndpoint path method op).method = jsToUpper method
        ∧ (mkEndpoint path method op).tags = getD op "tags"
        ∧ (getD op "parameters" = .undefined → (mkEndpoint path method op).parameters = .arr [])
        ∧ (getD op "responses" = .undefined → (mkEndpoint path method op).responses = .obj [])
        ∧ (truthy (getD op "summary") = true →
            (mkEndpoint path method op).summary = getD op "summary")
        ∧ (truthy (getD op "summary") = false → truthy (getD op "description") = true →
            (mkEndpoint path method op).summary = getD op "description")
        ∧ (truthy (getD op "summary") = false → truthy (getD op "description") = false →
            (mkEndpoint path method op).summary = .str (jsToUpper method ++ " " ++ path))) := by
  constructor
  · intro data eps h ep hep
    unfold parseSwagger at h
    cases data with
    | null => simp [bind, Except.bind] at h
    | undefined => simp [bind, Except.bind] at h
    | bool b =>
        simp only [bind, Except.bind] at h
        exact parseSwaggerPaths_mem h ep hep
    | num n =>
        simp only [bind, Except.bind] at h
        exact parseSwaggerPaths_mem h ep hep
    | str s =>
        simp only [bind, Except.bind] at h
        exact parseSwaggerPaths_mem h ep hep
    | arr xs =>
        simp only [bind, Except.bind] at h
        exact parseSwaggerPaths_mem h ep hep
    | obj fs =>
        simp only [bind, Except.bind] at h
        exact parseSwaggerPaths_mem h ep hep
  · intro path method op
    refine ⟨rfl, rfl, ?_, ?_, ?_, ?_, ?_⟩
    · intro h; simp [mkEndpoint, jsOr, h, truthy]
    · intro h; simp [mkEndpoint, jsOr, h, truthy]
    · intro h; simp [mkEndpoint, jsOr, h]
    · intro h1 h2; simp [mkEndpoint, jsOr, h1, h2]
    · intro h1 h2; simp [mkEndpoint, jsOr, h1, h2]

/-- Witness for C9: the single-operation document, with every optional
field omitted. -/
theorem C9_witness :
    ((mkEndpoint "/p" "get" (.obj [])).method = jsToUpper "get"
      ∧ (mkEndpoint "/p" "get" (.obj [])).parameters = .arr []
      ∧ (mkEndpoint "/p" "get" (.obj [])).responses = .obj []
      ∧ (mkEndpoint "/p" "get" (.obj [])).tags = getD (.obj []) "tags"
      ∧ (mkEndpoint "/p" "get" (.obj [])).summary = .str (jsToUpper "get" ++ " " ++ "/p")) := by
  obtain ⟨-, h2, h3, h4, -, -, h7⟩ := C9_endpoint_shape.2 "/p" "get" (.obj [])
  exact ⟨rfl, h3 rfl, h4 rfl, h2, h7 rfl rfl⟩

theorem noNulls_lookup {k : String} {fs : List (String × Json)} {v : Json}
    (h : List.lookup k fs = some v) (hn : noNullsFields fs = true) : noNulls v = true := by
  induction fs with
  | nil => simp [List.lookup] at h
  | cons p ps ih =>
      rcases p with ⟨k', v'⟩
      rw [List.lookup] at h
      simp only [noNullsFields, Bool.and_eq_true] at hn
      cases hkk : (k == k') with
      | true =>
          rw [hkk] at h
          simp at h
          subst h
          exact hn.1
      | false =>
          rw [hkk] at h
          simp at h
          exact ih h hn.2

theorem noNulls_mem {x : Json} {xs : List Json}
    (h : x ∈ xs) (hn : noNullsList xs = true) : noNulls x = true := by
  induction xs with
  | nil => cases h
  | cons y ys ih =>
      simp only [noNullsList, Bool.and_eq_true] at hn
      rcases List.mem_cons.mp h with rfl | hmem
      · exact hn.1
      · exact ih hmem hn.2

/-- In a document without nulls, a property read is either `undefined`
or again a value without nulls. -/
theorem noNulls_getD {v : Json} (k : String) (hn : noNulls v = true) :
    getD v k = .undefined ∨ noNulls (getD v k) = true := by
  cases v with
  | undefined => simp [noNulls] at hn
  | null => simp [noNulls] at hn
  | bool b => left; rfl
  | num n => left; rfl
  | obj fs =>
      simp only [getD]
      cases h : List.lookup k fs with
      | none => left; rfl
      | some w =>
          right
          simp only [Option.getD]
          exact noNulls_lookup h (by simpa [noNulls] using hn)
  | arr xs =>
      simp only [getD]
      by_cases hl : k = "length"
      · right; simp [hl, noNulls]
      · simp only [hl, if_false]
        cases hc : canonIdx k with
        | none => left; rfl
        | some i =>
            cases hx : xs[i]? with
            | none => left; simp [hx]
            | some w =>
                right
                simp only [hx, Option.getD]
                have hmem : w ∈ xs := by
                  rcases List.getElem?_eq_some_iff.mp hx with ⟨hlt, hget⟩
                  exact hget ▸ List.getElem_mem hlt
                exact noNulls_mem hmem (by simpa [noNulls] using hn)
  | str s =>
      simp only [getD]
      by_cases hl : k = "length"
      · right; simp [hl, noNulls]
      · simp only [hl, if_false]
        cases hc : canonIdx k with
        | none => left; rfl
        | some i =>
            cases hx : s.toList[i]? with
            | none =>
                left
                have hx' : s.data[i]? = none := hx
                simp [hx, hx']
            | some c =>
                right
                have hx' : s.data[i]? = some c := hx
                simp [hx, hx', noNulls]

theorem walkRef_no_error :
    ∀ (parts : List String) (cur : Json), noNulls cur = true →
      ∃ v, walkRef parts cur = .ok v := by
  intro parts
  induction parts with
  | nil => intro cur hn; exact ⟨cur, rfl⟩
  | cons p ps ih =>
      intro cur hn
      cases cur with
      | undefined => simp [noNulls] at hn
      | null => simp [noNulls] at hn
      | bool b =>
          rcases noNulls_getD p hn with hu | hnn
          · exact ⟨.null, by simp [walkRef, hu]⟩
          · obtain ⟨v, hv⟩ := ih (getD (Json.bool b) p) hnn
            refine ⟨v, ?_⟩
            unfold walkRef
            cases hg : getD (Json.bool b) p <;> simp_all [walkRef, noNulls]
      | num n =>
          rcases noNulls_getD p hn with hu | hnn
          · exact ⟨.null, by simp [walkRef, hu]⟩
          · obtain ⟨v, hv⟩ := ih (getD (Json.num n) p) hnn
            refine ⟨v, ?_⟩
            unfold walkRef
            cases hg : getD (Json.num n) p <;> simp_all [walkRef, noNulls]
      | str s =>
          rcases noNulls_getD p hn with hu | hnn
          · exact ⟨.null, by simp [walkRef, hu]⟩
          · obtain ⟨v, hv⟩ := ih (getD (Json.str s) p) hnn
            refine ⟨v, ?_⟩
            unfold walkRef
            cases hg : getD (Json.str s) p <;> simp_all [walkRef, noNulls]
      | arr xs =>
          rcases noNulls_getD p hn with hu | hnn
          · exact ⟨.null, by simp [walkRef, hu]⟩
          · obtain ⟨v, hv⟩ := ih (getD (Json.arr xs) p) hnn
            refine ⟨v, ?_⟩
            unfold walkRef
            cases hg : getD (Json.arr xs) p <;> simp_all [walkRef, noNulls]
      | obj fs =>
          rcases noNulls_getD p hn with hu | hnn
          · exact ⟨.null, by simp [walkRef, hu]⟩
          · obtain ⟨v, hv⟩ := ih (getD (Json.obj fs) p) hnn
            refine ⟨v, ?_⟩
            unfold walkRef
            cases hg : getD (Json.obj fs) p <;> simp_all [walkRef, noNulls]

/-- Claim C6, counterexample: walking `#/a/b` over `{"a": null}` makes
the loop read a property of `null` — a `TypeError` — instead of
returning `null`: the first segment exists but maps to `null`, and
`null["b"]` throws. -/
theorem C6_counterexample :
    resolveRef "#/a/b" (.obj [("a", .null)]) = .error () := by rfl

/-- Claim C6 as amended: for a document containing no `null` (or
`undefined`) values, `resolveRef` walks the slash-delimited segments
from the document root and always returns without raising — the
located node, or JavaScript `null` as soon as a segment is not a
property of the current node.  (When an intermediate node is `null`,
the property read on `null` throws a `TypeError` instead, as the
counterexample shows.) -/
theorem C6_resolveRef_total :
    ∀ (doc : Json) (ref : String), noNulls doc = true →
      ∃ v, resolveRef ref doc = .ok v := by
  intro doc ref hn
  unfold resolveRef
  by_cases hc : (ref = "" ∨ truthy doc = false)
  · exact ⟨.null, by simp [hc]⟩
  · simp only [hc, if_false]
    exact walkRef_no_error _ doc hn

/-- Witness for C6: a null-free document. -/
theorem C6_witness :
    noNulls (.obj [("a", .str "x")]) = true
    ∧ (∃ v, resolveRef "#/a/b" (.obj [("a", .str "x")]) = .ok v) :=
  ⟨rfl, C6_resolveRef_total (.obj [("a", .str "x")]) "#/a/b" rfl⟩

/-- Claim C5: sample synthesis never lets an exception escape.  For
every schema, document and clock value, `generateSampleJson` returns a
value: the empty string for a falsy schema, the rendering of the
generated sample when generation succeeds, and the fixed diagnostic
string `"Check Swagger Schema"` when the traversal raises. -/
theorem C5_synthesis_total :
    ∀ (schema doc : Json) (now : String),
      (truthy schema = false ∧ generateSampleJson schema doc now = some "")
      ∨ (∃ v, generate (refVals schema ++ refVals doc) doc now [] schema = .ok v
            ∧ generateSampleJson schema doc now = jsonStringify v)
      ∨ (generate (refVals schema ++ refVals doc) doc now [] schema = .error ()
            ∧ generateSampleJson schema doc now = some "Check Swagger Schema") := by
  intro schema doc now
  rcases ht : truthy schema with _ | _
  · left
    exact ⟨rfl, by simp [generateSampleJson, ht]⟩
  · right
    cases hg : generate (refVals schema ++ refVals doc) doc now [] schema with
    | error e =>
        right
        cases e
        exact ⟨rfl, by simp [generateSampleJson, ht, hg]⟩
    | ok v =>
        left
        exact ⟨v, rfl, by simp [generateSampleJson, ht, hg]⟩

/-- Claim C10: a falsy (`null`/`undefined`/other falsy) schema argument
short-circuits `generateSampleJson` to the empty string, whereas a
truthy schema whose sample synthesizes to JavaScript `null` renders as
the four-character string `"null"`. -/
theorem C10_falsy_schema_empty :
    (∀ (schema doc : Json) (now : String),
      truthy schema = false → generateSampleJson schema doc now = some "")
    ∧ (∀ (schema doc : Json) (now : String),
      truthy schema = true →
      generate (refVals schema ++ refVals doc) doc now [] schema = .ok .null →
      generateSampleJson schema doc now = some "null") := by
  constructor
  · intro schema doc now h
    simp [generateSampleJson, h]
  · intro schema doc now h hg
    simp [generateSampleJson, h, hg, jsonStringify, stringifyVal]

/-- Witness for C10: the `null` schema gives `""`; a truthy schema of
unknown type synthesizes `null` and renders `"null"`. -/
theorem C10_witness :
    generateSampleJson .null (.obj []) "T" = some ""
    ∧ generateSampleJson (.obj [("type", .str "unknown")]) (.obj []) "T" = some "null" :=
  ⟨C10_falsy_schema_empty.1 .null (.obj []) "T" rfl,
   C10_falsy_schema_empty.2 (.obj [("type", .str "unknown")]) (.obj []) "T" rfl (by
     unfold generate
     simp [List.lookup, getD, truthy, isStrEq, isUndef, jsOr, canonIdx, parseNat, refVals,
           refValsFields])⟩

/-- Claim C3: re-encountering an in-flight pointer yields the empty
object placeholder without further recursion, and a directly
self-referential schema/document pair synthesizes (and renders) a value
— `generate` is a total function of Lean, so sample synthesis
terminates on every input, cyclic references included; the in-flight
set is what makes the recursion well-founded.  The concrete conjunct
runs the self-referencing schema `A` (whose property `self` references
`A` itself) end to end: the first re-resolution is cut off at `{}`. -/
theorem C3_cycle_guard :
    (∀ (L : List String) (doc : Json) (now : String) (seen : List String)
       (fs : List (String × Json)) (ptr : String),
      getD (.obj fs) "$ref" = .str ptr → ptr ≠ "" → seen.contains ptr = true →
      generate L doc now seen (.obj fs) = .ok (.obj []))
    ∧ generateSampleJson
        (Json.obj [("type", .str "object"),
           ("properties", .obj [("self", .obj [("$ref", .str "#/components/schemas/A")])])])
        (Json.obj [("components", .obj [("schemas", .obj [("A",
            Json.obj [("type", .str "object"),
              ("properties", .obj [("self", .obj [("$ref", .str "#/components/schemas/A")])])])])])])
        "T"
      = some "\x7b\n  \x22self\x22: \x7b\n    \x22self\x22: \x7b\x7d\n  \x7d\n\x7d" := by
  constructor
  · intro L doc now seen fs ptr h1 h2 h3
    unfold generate
    rw [h1]
    simp [truthy, h2, h3]
    intro h4
    exact absurd (contains_mem.mp h3) h4
  · have hgen :
        generate
          (refVals (Json.obj [("type", .str "object"),
             ("properties", .obj [("self", .obj [("$ref", .str "#/components/schemas/A")])])])
           ++ refVals (Json.obj [("components", .obj [("schemas", .obj [("A",
                Json.obj [("type", .str "object"),
                  ("properties", .obj [("self", .obj [("$ref", .str "#/components/schemas/A")])])])])])]))
          (Json.obj [("components", .obj [("schemas", .obj [("A",
                Json.obj [("type", .str "object"),
                  ("properties", .obj [("self", .obj [("$ref", .str "#/components/schemas/A")])])])])])])
          "T" []
          (Json.obj [("type", .str "object"),
             ("properties", .obj [("self", .obj [("$ref", .str "#/components/schemas/A")])])])
        = .ok (.obj [("self", .obj [("self", .obj [])])]) := by
      unfold generate
      simp [List.lookup, getD, truthy, isStrEq, isUndef, jsOr, canonIdx, parseNat, refVals,
            refValsFields, refValsList, resolveRef, stripHash, jsSplit, jsSplitAux, walkRef,
            genProps, genList, jsKeys, bind, Except.bind, pure, Except.pure, spreadInto, setKey,
            List.contains, List.elem, Except.map]
      unfold generate
      simp [List.lookup, getD, truthy, isStrEq, isUndef, jsOr, canonIdx, parseNat, refVals,
            refValsFields, refValsList, resolveRef, stripHash, jsSplit, jsSplitAux, walkRef,
            genProps, genList, jsKeys, bind, Except.bind, pure, Except.pure, spreadInto, setKey,
            List.contains, List.elem, Except.map]
      unfold generate
      simp [List.lookup, getD, truthy, isStrEq, isUndef, jsOr, canonIdx, parseNat, refVals,
            refValsFields, refValsList, resolveRef, stripHash, jsSplit, jsSplitAux, walkRef,
            genProps, genList, jsKeys, bind, Except.bind, pure, Except.pure, spreadInto, setKey,
            List.contains, List.elem, Except.map]
      unfold generate
      simp [List.lookup, getD, truthy, isStrEq, isUndef, jsOr, canonIdx, parseNat, refVals,
            refValsFields, refValsList, resolveRef, stripHash, jsSplit, jsSplitAux, walkRef,
            genProps, genList, jsKeys, bind, Except.bind, pure, Except.pure, spreadInto, setKey,
            List.contains, List.elem, Except.map]
    unfold generateSampleJson
    rw [hgen]
    rfl

/-- Witness for C3: the guard fires on a concrete in-flight pointer. -/
theorem C3_witness :
    getD (Json.obj [("$ref", .str "#/a")]) "$ref" = .str "#/a"
    ∧ ("#/a" : String) ≠ ""
    ∧ (["#/a"] : List String).contains "#/a" = true
    ∧ generate [] (.obj []) "T" ["#/a"] (.obj [("$ref", .str "#/a")]) = .ok (.obj []) :=
  ⟨rfl, by simp, rfl,
   C3_cycle_guard.1 [] (.obj []) "T" ["#/a"] [("$ref", .str "#/a")] "#/a" rfl (by simp) rfl⟩

/-- The oneOf/anyOf branch equation of `generate`: when the schema is
truthy, `$ref` and `allOf` are falsy and `s.oneOf || s.anyOf` is
truthy, the result is the sample of element `0` of that value. -/
theorem generate_oneOf_branch (L : List String) (doc : Json) (now : String)
    (seen : List String) (s : Json)
    (h1 : truthy s = true)
    (h2 : truthy (getD s "$ref") = false)
    (h3 : truthy (getD s "allOf") = false)
    (h4 : truthy (jsOr (getD s "oneOf") (getD s "anyOf")) = true) :
    generate L doc now seen s
      = generate L doc now seen (getD (jsOr (getD s "oneOf") (getD s "anyOf")) "0") := by
  conv_lhs => rw [generate]
  simp [h1, h2, h3, h4]

/-- The allOf branch equation of `generate`: when the schema is truthy,
`$ref` is falsy and `allOf` is an array, the result is the object
obtained by spreading the member samples left to right into `{}`. -/
theorem generate_allOf_branch (L : List String) (doc : Json) (now : String)
    (seen : List String) (s : Json) (subs : List Json)
    (h1 : truthy s = true)
    (h2 : truthy (getD s "$ref") = false)
    (h3 : getD s "allOf" = .arr subs) :
    generate L doc now seen s
      = (genList L doc now seen subs).map (fun gs => .obj (gs.foldl spreadInto [])) := by
  conv_lhs => rw [generate]
  simp [h1, h2, h3, show truthy (Json.arr subs) = true from rfl]
  split <;> simp_all

/-- Claim C7, counterexample: `allOf` is checked before `oneOf`.  A
schema carrying both an (empty) `allOf` array and a one-member `oneOf`
synthesizes `{}` from the `allOf` branch, not the first `oneOf`
member's sample `0`. -/
theorem C7_counterexample :
    generate [] (.obj []) "T" []
        (.obj [("allOf", .arr []), ("oneOf", .arr [.obj [("type", .str "integer")]])])
      = .ok (.obj [])
    ∧ generate [] (.obj []) "T" [] (.obj [("type", .str "integer")]) = .ok (.num 0)
    ∧ (Except.ok (Json.obj []) : Except Unit Json) ≠ .ok (.num 0) := by
  refine ⟨?_, ?_, by simp⟩
  · unfold generate
    simp [List.lookup, getD, truthy, isStrEq, isUndef, jsOr, canonIdx, parseNat,
          genList, spreadInto, Except.map]
  · unfold generate
    simp [List.lookup, getD, truthy, isStrEq, isUndef, jsOr, canonIdx, parseNat]

/-- Claim C7 as amended: for every schema carrying a `oneOf` (or, when
`oneOf` is falsy, an `anyOf`) listing with at least one member — and
carrying neither a truthy `$ref` nor a truthy `allOf`, which take
precedence — the sample is exactly the first listed member's sample;
the remaining members are ignored. -/
theorem C7_first_member :
    ∀ (L : List String) (doc : Json) (now : String) (seen : List String)
      (s x : Json) (rest : List Json),
      truthy s = true →
      truthy (getD s "$ref") = false →
      truthy (getD s "allOf") = false →
      (getD s "oneOf" = .arr (x :: rest)
        ∨ (truthy (getD s "oneOf") = false ∧ getD s "anyOf" = .arr (x :: rest))) →
      generate L doc now seen s = generate L doc now seen x := by
  intro L doc now seen s x rest h1 h2 h3 h4
  rcases h4 with h4 | ⟨h4a, h4b⟩
  · have hoo : truthy (jsOr (getD s "oneOf") (getD s "anyOf")) = true := by
      simp [jsOr, h4, truthy]
    have hfirst : getD (Json.arr (x :: rest)) "0" = x := by
      simp [getD, show canonIdx "0" = some 0 from by decide]
    have hsel : getD (jsOr (getD s "oneOf") (getD s "anyOf")) "0" = x := by
      simp [jsOr, h4, show truthy (Json.arr (x :: rest)) = true from rfl, hfirst]
    rw [generate_oneOf_branch L doc now seen s h1 h2 h3 hoo, hsel]
  · have hoo : truthy (jsOr (getD s "oneOf") (getD s "anyOf")) = true := by
      simp [jsOr, h4a, h4b, show truthy (Json.arr (x :: rest)) = true from rfl]
    have hfirst : getD (Json.arr (x :: rest)) "0" = x := by
      simp [getD, show canonIdx "0" = some 0 from by decide]
    have hsel : getD (jsOr (getD s "oneOf") (getD s "anyOf")) "0" = x := by
      simp [jsOr, h4a, h4b, hfirst]
    rw [generate_oneOf_branch L doc now seen s h1 h2 h3 hoo, hsel]

/-- Witness for C7: a two-member `oneOf` yields the first member's
sample (a string), and a two-member `anyOf` without `oneOf` behaves the
same. -/
theorem C7_witness :
    generate [] (.obj []) "T" []
        (.obj [("oneOf", .arr [.obj [("type", .str "string")], .obj [("type", .str "integer")]])])
      = generate [] (.obj []) "T" [] (.obj [("type", .str "string")])
    ∧ generate [] (.obj []) "T" [] (.obj [("type", .str "string")]) = .ok (.str "sample_string") := by
  constructor
  · exact C7_first_member [] (.obj []) "T" []
      (.obj [("oneOf", .arr [.obj [("type", .str "string")], .obj [("type", .str "integer")]])])
      (.obj [("type", .str "string")]) [.obj [("type", .str "integer")]]
      rfl rfl rfl (Or.inl rfl)
  · unfold generate
    simp [List.lookup, getD, truthy, isStrEq, isUndef, jsOr, canonIdx, parseNat]

/-- Claim C4, counterexample: a member whose sample is an array is not
dropped from the `allOf` merge.  `typeof [0] === "object"` holds in
JavaScript, so `{...combined, ...[0]}` copies the array's index keys:
the single-member `allOf` whose member synthesizes `[0]` merges to
`{"0": 0}`, not to `{}`. -/
theorem C4_counterexample :
    generate [] (.obj []) "T" []
        (.obj [("allOf", .arr [.obj [("type", .str "array"),
            ("items", .obj [("type", .str "integer")])]])])
      = .ok (.obj [("0", .num 0)])
    ∧ generate [] (.obj []) "T" []
        (.obj [("type", .str "array"), ("items", .obj [("type", .str "integer")])])
      = .ok (.arr [.num 0])
    ∧ (Except.ok (Json.obj [("0", .num 0)]) : Except Unit Json) ≠ .ok (.obj []) := by
  refine ⟨?_, ?_, by simp⟩
  · unfold generate
    simp [List.lookup, getD, truthy, isStrEq, isUndef, jsOr, canonIdx, parseNat,
          genList, spreadInto, setKey, Except.map, bind, Except.bind, pure, Except.pure]
    unfold generate
    simp [List.lookup, getD, truthy, isStrEq, isUndef, jsOr, canonIdx, parseNat,
          genList, spreadInto, setKey, Except.map, bind, Except.bind, pure, Except.pure]
    unfold generate
    simp [List.lookup, getD, truthy, isStrEq, isUndef, jsOr, canonIdx, parseNat,
          genList, spreadInto, setKey, Except.map, bind, Except.bind, pure, Except.pure,
          List.enum, List.enumFrom]
    rfl
  · unfold generate
    simp [List.lookup, getD, truthy, isStrEq, isUndef, jsOr, canonIdx, parseNat, Except.map]
    unfold generate
    simp [List.lookup, getD, truthy, isStrEq, isUndef, jsOr, canonIdx, parseNat, Except.map]

/-- Claim C4 as amended: for a truthy schema with no truthy `$ref`
(which takes precedence) and an `allOf` array, the sample is the
left-to-right object-spread merge of the member samples into `{}`,
later keys overwriting earlier ones in place; member samples that fail
JavaScript's `typeof === "object"` test (numbers, strings, booleans,
`undefined`) are dropped, `null` spreads to nothing, and an array
sample is spread by its numeric index keys rather than dropped.  The
members `{a:1,b:1}` and `{b:2,c:2}` merge to `{a:1,b:2,c:2}`. -/
theorem C4_allOf_merge :
    (∀ (L : List String) (doc : Json) (now : String) (seen : List String)
       (s : Json) (subs : List Json),
      truthy s = true →
      truthy (getD s "$ref") = false →
      getD s "allOf" = .arr subs →
      generate L doc now seen s
        = (genList L doc now seen subs).map (fun gs => .obj (gs.foldl spreadInto [])))
    ∧ (∀ acc : List (String × Json),
        spreadInto acc .null = acc ∧ spreadInto acc .undefined = acc
        ∧ (∀ n, spreadInto acc (.num n) = acc)
        ∧ (∀ b, spreadInto acc (.bool b) = acc)
        ∧ (∀ s, spreadInto acc (.str s) = acc))
    ∧ generate [] (.obj []) "T" []
        (.obj [("allOf", .arr
          [.obj [("example", .obj [("a", .num 1), ("b", .num 1)])],
           .obj [("example", .obj [("b", .num 2), ("c", .num 2)])]])])
      = .ok (.obj [("a", .num 1), ("b", .num 2), ("c", .num 2)]) := by
  refine ⟨?_, ?_, ?_⟩
  · intro L doc now seen s subs h1 h2 h3
    exact generate_allOf_branch L doc now seen s subs h1 h2 h3
  · intro acc
    exact ⟨rfl, rfl, fun n => rfl, fun b => rfl, fun s => rfl⟩
  · unfold generate
    simp [List.lookup, getD, truthy, isStrEq, isUndef, jsOr, canonIdx, parseNat,
          genList, spreadInto, setKey, Except.map, bind, Except.bind, pure, Except.pure]
    unfold generate
    simp [List.lookup, getD, truthy, isStrEq, isUndef, jsOr, canonIdx, parseNat,
          genList, spreadInto, setKey, Except.map, bind, Except.bind, pure, Except.pure]

/-- Witness for C4: the branch equation applied to a concrete `allOf`
schema with one `null`-sampling member; the merge of a single dropped
member is `{}`. -/
theorem C4_witness :
    generate [] (.obj []) "T" [] (.obj [("allOf", .arr [.obj [("type", .str "unknown")]])])
      = (genList [] (.obj []) "T" [] [.obj [("type", .str "unknown")]]).map
          (fun gs => .obj (gs.foldl spreadInto []))
    ∧ generate [] (.obj []) "T" [] (.obj [("allOf", .arr [.obj [("type", .str "unknown")]])])
      = .ok (.obj []) := by
  have hb := C4_allOf_merge.1 [] (.obj []) "T" []
    (.obj [("allOf", .arr [.obj [("type", .str "unknown")]])])
    [.obj [("type", .str "unknown")]] rfl rfl rfl
  refine ⟨hb, ?_⟩
  rw [hb]
  simp [genList, spreadInto, Except.map, bind, Except.bind, pure, Except.pure]
  unfold generate
  simp [List.lookup, getD, truthy, isStrEq, isUndef, jsOr, canonIdx, parseNat, spreadInto]
